import Mathlib

/-!
Verification development for the goice library (ICE/STUN/TURN over UDP).

The Go sources under verification are shallowly embedded below:
  stun/errorcode.go       -> ErrorCodeAttribute, ErrorCode constants
  turn/rsrvtoken.go       -> ReservationToken
  stun agent (agent.go)   -> Agent and its operations
  ice stunserversock.go   -> stunServerSock model
  ice/turnserversock.go   -> turnServerSock model
  ice/stunsock.go         -> stunSocket candidate gathering

Conventions: machine bytes are Nat with explicit % 256 where the Go code
converts to byte; network addresses are abstract Nat identifiers (the Go code
only ever compares address strings for equality); time is Nat (the Go code
only compares instants with Before and adds durations).
-/

/-! ## STUN message model

Modelled from the spec: the byte-level message codec (message.go of the stun
package) is not under src; per the spec a message carries a class, a method,
a 96-bit transaction id and an ordered list of TLV attributes, and Add
appends an attribute while Get returns the value of the first attribute with
the requested type. -/

/-- Attribute entry: 16-bit type and value bytes (TLV, order preserved). -/
structure AttrEntry where
  type : Nat
  value : List Nat
deriving DecidableEq

/-- Modelled from the spec: a STUN message with class, method, transaction id
and ordered attribute list. The raw serialized bytes are recovered by the
function Message.RawBytes below. -/
structure Message where
  classField : Nat
  methodField : Nat
  transactionID : Nat
  attributes : List AttrEntry
deriving DecidableEq

/-- Message classes, in the order the spec lists them. -/
def ClassRequest : Nat := 0

/-- Indication class. -/
def ClassIndication : Nat := 1

/-- Success-response class. -/
def ClassSuccessResponse : Nat := 2

/-- Error-response class. -/
def ClassErrorResponse : Nat := 3

/-- Method Binding. -/
def MethodBinding : Nat := 1

/-- Method Allocate. -/
def MethodAllocate : Nat := 3

/-- Method Refresh. -/
def MethodRefresh : Nat := 4

/-- Method Send. -/
def MethodSend : Nat := 6

/-- Method Data. -/
def MethodData : Nat := 7

/-- Method CreatePermission. -/
def MethodCreatePermission : Nat := 8

/-- Method ChannelBind. -/
def MethodChannelBind : Nat := 9

/-- Pseudo-method this codebase uses for ChannelData frames. -/
def MethodChannelData : Nat := 10

/-- ERROR-CODE attribute type (RFC 5389). -/
def AttrErrorCode : Nat := 0x0009

/-- XOR-PEER-ADDRESS attribute type (RFC 5766). -/
def AttrXORPeerAddress : Nat := 0x0012

/-- DATA attribute type (RFC 5766). -/
def AttrData : Nat := 0x0013

/-- RESERVATION-TOKEN attribute type (RFC 5766). -/
def AttrReservationToken : Nat := 0x0022

/-- FINGERPRINT attribute type (RFC 5389). -/
def AttrFingerprint : Nat := 0x8028

/-- Message.Add appends a TLV attribute, preserving insertion order
(spec section 3: attributes preserve insertion order). -/
def Message.Add (m : Message) (t : Nat) (v : List Nat) : Message :=
  { m with attributes := m.attributes ++ [⟨t, v⟩] }

/-- Equality of Except values is decidable componentwise. -/
instance {e a : Type} [DecidableEq e] [DecidableEq a] :
    DecidableEq (Except e a)
  | .ok x, .ok y =>
    if h : x = y then .isTrue (by rw [h]) else .isFalse (by simp [h])
  | .ok _, .error _ => .isFalse (by simp)
  | .error _, .ok _ => .isFalse (by simp)
  | .error x, .error y =>
    if h : x = y then .isTrue (by rw [h]) else .isFalse (by simp [h])

/-- Codec error kinds used by the embedded operations. -/
inductive CodecError where
  | attributeNotFound
  | unexpectedEOF
  | badAttrLength (expected got : Nat)
  | attrOverflow (got max : Nat)
deriving DecidableEq

/-- Message.Get returns the value of the first attribute with the given type,
or ErrAttributeNotFound. -/
def Message.Get (m : Message) (t : Nat) : Except CodecError (List Nat) :=
  match m.attributes.find? (fun a => a.type = t) with
  | some a => .ok a.value
  | none => .error .attributeNotFound

/-- Serialization of one attribute; modelled from the spec (type, length,
value). -/
def encodeAttr (a : AttrEntry) : List Nat :=
  a.type :: a.value.length :: a.value

/-- Modelled from the spec: serialized bytes of a message (header fields
followed by the attributes in order). Stands in for msg.Raw of the missing
codec. -/
def Message.RawBytes (m : Message) : List Nat :=
  m.classField :: m.methodField :: m.transactionID :: m.attributes.length ::
    (m.attributes.map encodeAttr).flatten

/-- Decode a count of TLV attributes from a byte list; inverse of encodeAttr
on well-formed input. -/
def decodeAttrs : Nat → List Nat → Except CodecError (List AttrEntry × List Nat)
  | 0, rest => .ok ([], rest)
  | n + 1, t :: len :: rest =>
    if len ≤ rest.length then
      match decodeAttrs n (rest.drop len) with
      | .ok (as, r) => .ok (⟨t, rest.take len⟩ :: as, r)
      | .error e => .error e
    else .error .unexpectedEOF
  | _ + 1, _ => .error .unexpectedEOF

/-- Modelled from the spec: parse bytes as a STUN message (res.Write of the
missing codec); fails on malformed input. -/
def parseStun (b : List Nat) : Except CodecError Message :=
  match b with
  | c :: mth :: tid :: nAttrs :: rest =>
    match decodeAttrs nAttrs rest with
    | .ok (as, r) =>
      if r.isEmpty then .ok ⟨c, mth, tid, as⟩ else .error .unexpectedEOF
    | .error e => .error e
  | _ => .error .unexpectedEOF

/-! ## stun/errorcode.go -/

/-- Constant errorCodeReasonStart from errorcode.go. -/
def errorCodeReasonStart : Nat := 4

/-- Constant errorCodeClassByte from errorcode.go. -/
def errorCodeClassByte : Nat := 2

/-- Constant errorCodeNumberByte from errorcode.go. -/
def errorCodeNumberByte : Nat := 3

/-- Constant errorCodeReasonMaxB from errorcode.go. -/
def errorCodeReasonMaxB : Nat := 763

/-- Constant errorCodeModulo from errorcode.go. -/
def errorCodeModulo : Nat := 100

/-- ErrorCodeAttribute from errorcode.go: numeric code plus reason bytes. -/
structure ErrorCodeAttribute where
  Code : Nat
  Reason : List Nat
deriving DecidableEq

/-- ErrorCodeAttribute.AddTo from errorcode.go: rejects reasons longer than
763 bytes, then stores value bytes 0,0,class,number followed by the reason,
where number is byte(Code % 100) and class is byte(Code / 100). -/
def ErrorCodeAttribute.AddTo (c : ErrorCodeAttribute) (m : Message) :
    Except CodecError Message :=
  if c.Reason.length > errorCodeReasonMaxB then
    .error (.attrOverflow (c.Reason.length + errorCodeReasonStart)
      (errorCodeReasonMaxB + errorCodeReasonStart))
  else
    let number := (c.Code % errorCodeModulo) % 256
    let class0 := (c.Code / errorCodeModulo) % 256
    .ok (m.Add AttrErrorCode ([0, 0, class0, number] ++ c.Reason))

/-- ErrorCodeAttribute.GetFrom from errorcode.go: reads the value of the
ERROR-CODE attribute, requires at least 4 bytes, reconstructs the code as
class*100 + number and takes the remaining bytes as the reason. -/
def ErrorCodeAttribute.GetFrom (m : Message) :
    Except CodecError ErrorCodeAttribute :=
  match m.Get AttrErrorCode with
  | .error e => .error e
  | .ok v =>
    if v.length < errorCodeReasonStart then .error .unexpectedEOF
    else
      let class0 := v.getD errorCodeClassByte 0
      let number := v.getD errorCodeNumberByte 0
      .ok ⟨class0 * errorCodeModulo + number, v.drop errorCodeReasonStart⟩

/-- CodeTryAlternate from errorcode.go. -/
def CodeTryAlternate : Nat := 300

/-- CodeBadRequest from errorcode.go. -/
def CodeBadRequest : Nat := 400

/-- CodeUnauthorised from errorcode.go. -/
def CodeUnauthorised : Nat := 401

/-- CodeUnknownAttribute from errorcode.go. -/
def CodeUnknownAttribute : Nat := 420

/-- CodeStaleNonce as defined in errorcode.go (the source literally says 428). -/
def CodeStaleNonce : Nat := 428

/-- CodeRoleConflict as defined in errorcode.go (the source literally says 478). -/
def CodeRoleConflict : Nat := 478

/-- CodeServerError from errorcode.go. -/
def CodeServerError : Nat := 500

/-! ## turn/rsrvtoken.go -/

/-- Constant reservationTokenSize from rsrvtoken.go. -/
def reservationTokenSize : Nat := 8

/-- ReservationToken.AddTo from rsrvtoken.go: rejects tokens whose length is
not 8, otherwise adds the bytes under RESERVATION-TOKEN. -/
def ReservationToken.AddTo (t : List Nat) (m : Message) :
    Except CodecError Message :=
  if t.length ≠ reservationTokenSize then
    .error (.badAttrLength reservationTokenSize t.length)
  else
    .ok (m.Add AttrReservationToken t)

/-- ReservationToken.GetFrom from rsrvtoken.go: reads RESERVATION-TOKEN and
requires exactly 8 bytes. -/
def ReservationToken.GetFrom (m : Message) : Except CodecError (List Nat) :=
  match m.Get AttrReservationToken with
  | .error e => .error e
  | .ok v =>
    if v.length ≠ reservationTokenSize then
      .error (.badAttrLength reservationTokenSize v.length)
    else
      .ok v

/-! ## Transaction agent (part_001, package stun)

Transaction ids, deadlines and handlers are abstracted to Nat: the Go agent
only compares ids for equality, compares deadlines with Before, and calls
handlers opaquely. Each operation returns, alongside the new agent state,
the list of transaction handlers it invoked (the Go code invokes them after
releasing the mutex; in any interleaving the map update decides which call
invokes a given handler, so the sequential trace below captures every
interleaving of the serialized map operations). -/

/-- The agentTransaction record from part_001: id, deadline and handler. -/
structure agentTransaction where
  id : Nat
  deadline : Nat
  h : Nat
deriving DecidableEq

/-- Agent state: the transactions map (modelled as a list with unique ids on
reachable states) and the closed flag. The zero handler is not a transaction
handler and is kept out of the invocation accounting. -/
structure Agent where
  transactions : List agentTransaction
  closed : Bool
deriving DecidableEq

/-- NewAgent from part_001: empty transactions, not closed. -/
def Agent.new : Agent := ⟨[], false⟩

/-- Agent errors from part_001. -/
inductive AgentError where
  | agentClosed
  | transactionExists
  | transactionNotExists
deriving DecidableEq

/-- Agent.Start from part_001: rejected when closed or when the id is
registered, otherwise registers the transaction. -/
def Agent.Start (a : Agent) (id deadline hh : Nat) :
    Agent × Except AgentError Unit :=
  if a.closed then (a, .error .agentClosed)
  else if a.transactions.any (fun t => t.id = id) then
    (a, .error .transactionExists)
  else
    ({ a with transactions := a.transactions ++ [⟨id, deadline, hh⟩] }, .ok ())

/-- Agent.Process from part_001: when not closed, deregisters the transaction
with the message id before invoking its handler; the returned list holds the
invoked transaction handlers (the zero handler, used when no transaction
matches, is not one). -/
def Agent.Process (a : Agent) (id : Nat) : Agent × List Nat :=
  if a.closed then (a, [])
  else
    match a.transactions.find? (fun t => t.id = id) with
    | some t =>
      ({ a with transactions := a.transactions.eraseP (fun t => t.id = id) },
        [t.h])
    | none => (a, [])

/-- Agent.StopWithError from part_001: same deregister-then-invoke shape as
Process, with an error event instead of a message. -/
def Agent.StopWithError (a : Agent) (id : Nat) : Agent × List Nat :=
  if a.closed then (a, [])
  else
    match a.transactions.find? (fun t => t.id = id) with
    | some t =>
      ({ a with transactions := a.transactions.eraseP (fun t => t.id = id) },
        [t.h])
    | none => (a, [])

/-- Agent.Collect from part_001: removes every transaction whose deadline is
before gcTime, then invokes each removed handler with the timeout error. -/
def Agent.Collect (a : Agent) (gcTime : Nat) : Agent × List Nat :=
  if a.closed then (a, [])
  else
    ({ a with transactions :=
        a.transactions.filter (fun t => ¬ t.deadline < gcTime) },
      (a.transactions.filter (fun t => t.deadline < gcTime)).map
        (fun t => t.h))

/-- Agent.Close from part_001: invokes every remaining handler with the
closed error, empties the map and blocks all further operations. -/
def Agent.Close (a : Agent) : Agent × List Nat :=
  if a.closed then (a, [])
  else (⟨[], true⟩, a.transactions.map (fun t => t.h))

/-- One operation of the agent interface. -/
inductive AgentOp where
  | start (id deadline hh : Nat)
  | process (id : Nat)
  | stop (id : Nat)
  | collect (gcTime : Nat)
  | close
deriving DecidableEq

/-- One step: the new state, the transaction handlers invoked by the step,
and the handler tags of starts that succeeded in the step. -/
def Agent.step (a : Agent) : AgentOp → Agent × List Nat × List Nat
  | .start id deadline hh =>
    match a.Start id deadline hh with
    | (a1, .ok _) => (a1, [], [hh])
    | (a1, .error _) => (a1, [], [])
  | .process id =>
    let (a1, inv) := a.Process id
    (a1, inv, [])
  | .stop id =>
    let (a1, inv) := a.StopWithError id
    (a1, inv, [])
  | .collect gcTime =>
    let (a1, inv) := a.Collect gcTime
    (a1, inv, [])
  | .close =>
    let (a1, inv) := a.Close
    (a1, inv, [])

/-- Run a sequence of operations, accumulating invoked handlers and
successful start tags. -/
def Agent.run (a : Agent) : List AgentOp → Agent × List Nat × List Nat
  | [] => (a, [], [])
  | op :: ops =>
    let s := a.step op
    let r := s.1.run ops
    (r.1, s.2.1 ++ r.2.1, s.2.2 ++ r.2.2)

/-- Number of pending transactions of the agent carrying handler tag hh. -/
def Agent.pendingCount (a : Agent) (hh : Nat) : Nat :=
  (a.transactions.filter (fun t => t.h = hh)).length

/-! ## stunServerSock (part_002, package ice)

Addresses are abstract Nat identifiers; the Go code only compares address
strings. The send queue, the logger and the UDP connection are abstracted:
sendData returns the effect it has (panic, silent drop when stopped, or an
enqueued datagram). -/

/-- The serverSockMode values from part_002. -/
inductive serverSockMode where
  | stageNegotiation
  | stunModeData
  | turnModeData
deriving DecidableEq

/-- The cachedResponse record from part_002: insertion time and message. -/
structure cachedResponse where
  cacheTime : Nat
  msg : Message
deriving DecidableEq

/-- Constant stunResponseCacheDuration; modelled from the spec (the constant
lives in an ice file not under src; the spec says the cache is bounded by a
TTL of a few seconds). Only its comparisons matter to the claims. -/
def stunResponseCacheDuration : Nat := 5

/-- The stunServerSock record from part_002, with the fields the claims
touch. The waiters map keeps only its key set: the Go channels are modelled
by the delivery outcomes below. -/
structure stunServerSock where
  Addr : Nat
  mode : serverSockMode
  channelNumber2Address : List (Nat × Nat)
  address2ChannelNumber : List (Nat × Nat)
  waiters : List Nat
  cachedResponse : List (Nat × cachedResponse)
  stoped : Bool
deriving DecidableEq

/-- Effect of stunServerSock.sendData from part_002: panic when fromaddr is
not the bound address, silent drop when the socket has stopped, otherwise
the datagram enters the send queue. -/
inductive SockEffect where
  | panicked
  | droppedStopped
  | sent (data : List Nat) (toaddr : Nat)
deriving DecidableEq

/-- stunServerSock.sendData from part_002. -/
def stunServerSock.sendData (s : stunServerSock) (data : List Nat)
    (fromaddr toaddr : Nat) : SockEffect :=
  if s.Addr ≠ fromaddr then .panicked
  else if s.stoped then .droppedStopped
  else .sent data toaddr

/-- Replace the binding of key k in an association list (Go map update). -/
def setAssoc (l : List (Nat × Nat)) (k v : Nat) : List (Nat × Nat) :=
  l.filter (fun e => e.1 ≠ k) ++ [(k, v)]

/-- stunServerSock.SetChannelNumber from part_002: records both directions of
the channel-number binding. -/
def stunServerSock.SetChannelNumber (s : stunServerSock)
    (channelNumber addr : Nat) : stunServerSock :=
  { s with
    channelNumber2Address := setAssoc s.channelNumber2Address channelNumber addr
    address2ChannelNumber := setAssoc s.address2ChannelNumber addr channelNumber }

/-- stunServerSock.sendStunMessageAsync from part_002: responses (Success or
Error class) are stored in the response cache keyed by transaction id with
the current time, then the raw bytes are sent. -/
def stunServerSock.sendStunMessageAsync (s : stunServerSock) (msg : Message)
    (fromaddr toaddr : Nat) (now : Nat) : stunServerSock × SockEffect :=
  let s1 :=
    if msg.classField = ClassSuccessResponse ∨ msg.classField = ClassErrorResponse
    then { s with cachedResponse :=
            (s.cachedResponse.filter (fun e => e.1 ≠ msg.transactionID)) ++
              [(msg.transactionID, ⟨now, msg⟩)] }
    else s
  (s1, s1.sendData msg.RawBytes fromaddr toaddr)

/-- stunServerSock.checkCachedResponse from part_002: when the cache is
nonempty, first evict every entry whose cacheTime plus the TTL is before
now, then, if some remaining entry has the request method and transaction
id, resend its raw bytes to the sender and report the message as handled. -/
def stunServerSock.checkCachedResponse (s : stunServerSock) (req : Message)
    (fromaddr : Nat) (now : Nat) : Bool × stunServerSock × List SockEffect :=
  if s.cachedResponse.length = 0 then (false, s, [])
  else
    let kept := s.cachedResponse.filter
      (fun e => ¬ e.2.cacheTime + stunResponseCacheDuration < now)
    let s1 := { s with cachedResponse := kept }
    match kept.find? (fun e =>
        e.2.msg.methodField = req.methodField ∧
        e.2.msg.transactionID = req.transactionID) with
    | some e => (true, s1, [s1.sendData e.2.msg.RawBytes s1.Addr fromaddr])
    | none => (false, s1, [])

/-- stunServerSock.addWaiter from part_002: errDuplicateWaiter when the key
is present, otherwise registers the waiter. -/
def stunServerSock.addWaiter (s : stunServerSock) (key : Nat) :
    Except Unit stunServerSock :=
  if key ∈ s.waiters then .error ()
  else .ok { s with waiters := s.waiters ++ [key] }

/-- stunServerSock.getAndRemoveWaiter from part_002. -/
def stunServerSock.getAndRemoveWaiter (s : stunServerSock) (key : Nat) :
    stunServerSock × Bool :=
  if key ∈ s.waiters then
    ({ s with waiters := s.waiters.filter (fun k => k ≠ key) }, true)
  else (s, false)

/-- ChannelData.GetFrom of the turn package; modelled from the spec: a
ChannelData frame carries a 16-bit channel number and its payload. Decoded
here from the serialized bytes of the message (number, length, payload). -/
def channelDataGetFrom (m : Message) : Except CodecError (Nat × List Nat) :=
  match m.Get AttrData with
  | .ok (num :: len :: rest) =>
    if rest.length = len then .ok (num, rest) else .error .unexpectedEOF
  | .ok _ => .error .unexpectedEOF
  | .error e => .error e

/-- Observable outcomes of the receive dispatch in part_002. -/
inductive RecvOutcome where
  | deliveredToWaiter (id : Nat)
  | cachedResend (eff : SockEffect)
  | upcallStunMessage (localAddr fromaddr : Nat) (msg : Message)
  | upcallData (localAddr peerAddr : Nat) (data : List Nat)
  | droppedLogged
deriving DecidableEq

/-- Waiter-then-cache-then-callback dispatch shared by all branches that
reach the bottom of stunServerSock.stunMessageReceived in part_002. -/
def stunServerSock.dispatchTail (s : stunServerSock) (localaddr fromaddr : Nat)
    (msg : Message) (now : Nat) : stunServerSock × List RecvOutcome :=
  let w := s.getAndRemoveWaiter msg.transactionID
  if w.2 then (w.1, [.deliveredToWaiter msg.transactionID])
  else
    let c := w.1.checkCachedResponse msg fromaddr now
    if c.1 then (c.2.1, c.2.2.map (fun e => .cachedResend e))
    else (c.2.1, [.upcallStunMessage localaddr fromaddr msg])

/-- stunServerSock.stunMessageReceived from part_002. ChannelData messages
are handled first: dropped during negotiation, delivered as plain data in
stun mode, and in turn mode decoded and mapped through the channel-number
table (falling through to the dispatch tail afterwards, as the Go code does
not return there); every other message goes to the waiter, cache, callback
dispatch. -/
def stunServerSock.stunMessageReceived (s : stunServerSock)
    (localaddr fromaddr : Nat) (msg : Message) (now : Nat) :
    stunServerSock × List RecvOutcome :=
  if msg.methodField = MethodChannelData then
    match s.mode with
    | .stageNegotiation => (s, [.droppedLogged])
    | .stunModeData => (s, [.upcallData s.Addr fromaddr msg.RawBytes])
    | .turnModeData =>
      match channelDataGetFrom msg with
      | .error _ => (s, [.droppedLogged])
      | .ok (num, data) =>
        match s.channelNumber2Address.find? (fun e => e.1 = num) with
        | none => (s, [.droppedLogged])
        | some e =>
          let r := s.dispatchTail localaddr fromaddr msg now
          (r.1, .upcallData s.Addr e.2 data :: r.2)
  else
    s.dispatchTail localaddr fromaddr msg now

/-! ## Synchronous sends (part_002 and turnserversock.go)

The blocking wait is embedded with an explicit outcome: either the receive
path delivered a matching response on the waiter channel before the timer
fired (the receive path removes the waiter with getAndRemoveWaiter before
delivering), or the timer fired and wait returns errTimeout. In the source
the defer that would remove the waiter on the timeout path is commented out
in both sendStunMessageSync functions, so the model removes the waiter only
on the response path. -/

/-- Environment outcome of one blocking wait. -/
inductive SyncOutcome where
  | response (res : Message)
  | timeout
deriving DecidableEq

/-- Errors a synchronous send can return. -/
inductive SyncError where
  | duplicateWaiter
  | errTimeout
  | panicked
deriving DecidableEq

/-- stunServerSock.sendStunMessageSync from part_002: register the waiter,
send asynchronously, then wait; the waiter is removed by the receive path on
the response outcome and by nobody on the timeout outcome. -/
def stunServerSock.sendStunMessageSync (s : stunServerSock) (msg : Message)
    (fromaddr toaddr : Nat) (now : Nat) (outcome : SyncOutcome) :
    stunServerSock × Except SyncError Message :=
  match s.addWaiter msg.transactionID with
  | .error _ => (s, .error .duplicateWaiter)
  | .ok s1 =>
    let s2 := (s1.sendStunMessageAsync msg fromaddr toaddr now).1
    match outcome with
    | .response res =>
      ((s2.getAndRemoveWaiter msg.transactionID).1, .ok res)
    | .timeout => (s2, .error .errTimeout)

/-- The turnServerSockConfig fields the claims use. -/
structure turnServerSockConfig where
  serverAddr : Nat
  relayAddress : Nat
deriving DecidableEq

/-- The turnServerSock record from turnserversock.go: the wrapped stun
server-socket and the configuration. -/
structure turnServerSock where
  s : stunServerSock
  cfg : turnServerSockConfig
deriving DecidableEq

/-- CHANNEL-NUMBER attribute type (RFC 5766). -/
def AttrChannelNumber : Nat := 0x000C

/-- Constant MinChannelNumber of the turn package; modelled from the spec:
channel numbers live in 0x4000 to 0x7FFF. -/
def turn.MinChannelNumber : Nat := 0x4000

/-- Constant MaxChannelNumber of the turn package; modelled from the spec. -/
def turn.MaxChannelNumber : Nat := 0x7FFF

/-- turnServerSock.wrapperStunMessage from turnserversock.go: a message sent
from the real bound address passes through unchanged; a message sent from
any other address than the relayed one panics (none); a message sent from
the relayed address is wrapped in a SendIndication carrying XOR-PEER-ADDRESS
equal to the destination and DATA equal to the raw message, readdressed to
the TURN server. The fresh transaction id drawn by TransactionIDSetter is
modelled as 0, which no claim observes. -/
def turnServerSock.wrapperStunMessage (ts : turnServerSock)
    (fromaddr toaddr : Nat) (msg : Message) : Option (Message × Nat × Nat) :=
  if fromaddr = ts.s.Addr then some (msg, fromaddr, toaddr)
  else if fromaddr ≠ ts.cfg.relayAddress then none
  else
    some (⟨ClassIndication, MethodSend, 0,
      [⟨AttrXORPeerAddress, [toaddr]⟩, ⟨AttrData, msg.RawBytes⟩,
        ⟨AttrFingerprint, []⟩]⟩,
      ts.s.Addr, ts.cfg.serverAddr)

/-- turnServerSock.sendStunMessageSync from turnserversock.go: register the
waiter under the original transaction id, wrap for relay if needed, send
asynchronously, wait. As in the stun variant, the waiter removal on the
timeout path is commented out in the source. -/
def turnServerSock.sendStunMessageSync (ts : turnServerSock) (msg : Message)
    (fromaddr toaddr : Nat) (now : Nat) (outcome : SyncOutcome) :
    turnServerSock × Except SyncError Message :=
  match ts.s.addWaiter msg.transactionID with
  | .error _ => (ts, .error .duplicateWaiter)
  | .ok s1 =>
    match ts.wrapperStunMessage fromaddr toaddr msg with
    | none => ({ ts with s := s1 }, .error .panicked)
    | some (msg2, fa2, ta2) =>
      let s2 := (s1.sendStunMessageAsync msg2 fa2 ta2 now).1
      match outcome with
      | .response res =>
        ({ ts with s := (s2.getAndRemoveWaiter msg.transactionID).1 }, .ok res)
      | .timeout => ({ ts with s := s2 }, .error .errTimeout)

/-- Action produced by turnServerSock.sendData. -/
inductive TurnSendAction where
  | channelData (number : Nat) (data : List Nat) (toaddr : Nat)
  | sendIndication (peerAddr : Nat) (data : List Nat) (toaddr : Nat)
  | direct (data : List Nat) (fromaddr toaddr : Nat)
deriving DecidableEq

/-- Reading a Go map of Nat to Nat returns the zero value when the key is
absent. -/
def lookupChannelNumber (l : List (Nat × Nat)) (addr : Nat) : Nat :=
  match l.find? (fun e => e.1 = addr) with
  | some e => e.2
  | none => 0

/-- turnServerSock.sendData from turnserversock.go: from the relayed address
the destination channel number is looked up; if it lies in the channel
range the payload is framed as ChannelData and sent to the TURN server,
otherwise the payload is wrapped in a SendIndication carrying
XOR-PEER-ADDRESS and DATA and sent to the TURN server; from any other
address the bytes go out directly (the inner stunServerSock.sendData then
panics unless that address is the bound one). -/
def turnServerSock.sendData (ts : turnServerSock) (data : List Nat)
    (fromaddr toaddr : Nat) : TurnSendAction :=
  if fromaddr = ts.cfg.relayAddress then
    let number := lookupChannelNumber ts.s.address2ChannelNumber toaddr
    if turn.MinChannelNumber ≤ number ∧ number ≤ turn.MaxChannelNumber then
      .channelData number data ts.cfg.serverAddr
    else
      .sendIndication toaddr data ts.cfg.serverAddr
  else
    .direct data fromaddr toaddr

/-- turnServerSock.channelBind from turnserversock.go: the request always
carries channel number turn.MinChannelNumber (the source passes the literal
turn.ChannelNumber(turn.MinChannelNumber)); on a reply that is not
simultaneously of wrong method and wrong class the binding of the peer to
turn.MinChannelNumber is recorded through SetChannelNumber. Returns the
requested channel number, the resulting socket and whether the bind was
recorded. -/
def turnServerSock.channelBind (ts : turnServerSock) (addr : Nat)
    (tid : Nat) (now : Nat) (outcome : SyncOutcome) :
    Nat × turnServerSock × Bool :=
  let requested := turn.MinChannelNumber
  let req : Message := ⟨ClassRequest, MethodChannelBind, tid,
    [⟨AttrChannelNumber, [requested]⟩, ⟨AttrXORPeerAddress, [addr]⟩]⟩
  let r := ts.sendStunMessageSync req ts.s.Addr ts.cfg.serverAddr now outcome
  match r.2 with
  | .error _ => (requested, r.1, false)
  | .ok res =>
    if res.methodField ≠ MethodChannelBind ∧
       res.classField ≠ ClassSuccessResponse then
      (requested, r.1, false)
    else
      (requested,
        { r.1 with s := r.1.s.SetChannelNumber turn.MinChannelNumber addr },
        true)

/-- PeerAddress.GetFrom of the turn package; modelled from the spec: reads
XOR-PEER-ADDRESS, whose value encodes one abstract address. -/
def peerAddressGetFrom (m : Message) : Except CodecError Nat :=
  match m.Get AttrXORPeerAddress with
  | .ok [a] => .ok a
  | .ok _ => .error .unexpectedEOF
  | .error e => .error e

/-- Action produced by the turnServerSock receive path. -/
inductive TurnRecvAction where
  | panicked
  | upcallStun (localAddr remoteAddr : Nat) (msg : Message)
  | upcallData (localAddr peerAddr : Nat) (data : List Nat)
  | refeedStun (localAddr peerAddr : Nat) (msg : Message)
deriving DecidableEq

/-- turnServerSock.RecieveStunMessage from turnserversock.go. For a
DataIndication: panic when the sender is not the TURN server, panic when the
DATA attribute is missing, panic when it is empty, panic when
XOR-PEER-ADDRESS is missing; then the payload is parsed as STUN, and on
parse failure or a ChannelData method it is surfaced as data, otherwise the
message is re-fed as received on the relayed address (the final panic branch
is dead because its guard condition is a tautology). Every other message
goes to the upper callback. -/
def turnServerSock.RecieveStunMessage (ts : turnServerSock)
    (localAddr remoteAddr : Nat) (msg : Message) : List TurnRecvAction :=
  if msg.classField = ClassIndication ∧ msg.methodField = MethodData then
    if remoteAddr ≠ ts.cfg.serverAddr then [.panicked]
    else
      match msg.Get AttrData with
      | .error _ => [.panicked]
      | .ok data =>
        if data.length = 0 then [.panicked]
        else
          match peerAddressGetFrom msg with
          | .error _ => [.panicked]
          | .ok peer =>
            match parseStun data with
            | .error _ => [.upcallData localAddr peer data]
            | .ok res =>
              if res.methodField = MethodChannelData then
                [.upcallData localAddr peer data]
              else
                if (res.classField = ClassSuccessResponse ∧
                      res.methodField = MethodBinding) ∨
                   ¬ (res.classField = ClassErrorResponse ∧
                      res.methodField = MethodBinding) ∨
                   ¬ (res.classField = ClassRequest ∧
                      res.methodField = MethodBinding) then
                  [.refeedStun ts.cfg.relayAddress peer res]
                else [.panicked]
  else [.upcallStun localAddr remoteAddr msg]

/-- stunServerSock.serveConn from part_002: a datagram that does not parse
as STUN is surfaced raw to the data callback; Binding and Send indications
are dropped as keepalives; everything else enters stunMessageReceived. -/
def stunServerSock.serveConn (s : stunServerSock) (fromaddr : Nat)
    (raw : List Nat) (now : Nat) : stunServerSock × List RecvOutcome :=
  match parseStun raw with
  | .error _ => (s, [.upcallData s.Addr fromaddr raw])
  | .ok req =>
    if (req.classField = ClassIndication ∧ req.methodField = MethodBinding) ∨
       (req.classField = ClassIndication ∧ req.methodField = MethodSend) then
      (s, [.droppedLogged])
    else
      s.stunMessageReceived s.Addr fromaddr req now

/-! ## stunSocket candidate gathering (ice/stunsock.go) -/

/-- Candidate with the fields stunsock.go touches. -/
structure Candidate where
  addr : Nat
  baseAddr : Nat
  ctype : Nat
  Foundation : Nat
deriving DecidableEq

/-- Candidate type Host; the enum values live outside src, only distinctness
is used. -/
def CandidateHost : Nat := 0

/-- Candidate type ServerReflexive. -/
def CandidateServerReflexive : Nat := 1

/-- Function calcFoundation is not under src; modelled from the spec as a
stable hash of the base address, here the identity. -/
def calcFoundation (addr : Nat) : Nat := addr

/-- The stunSocket fields GetCandidates reads: the local address used to
reach the STUN server and the server-reported mapped address. -/
structure stunSocket where
  LocalAddr : Nat
  MappedAddr : Nat
deriving DecidableEq

/-- stunSocket.GetCandidates from stunsock.go, success path: the
server-reflexive candidate has base the local address and transport address
the mapped address; the host candidates come from getLocalCandidates (not
under src, taken as a parameter); the server-reflexive candidate is appended
exactly when the mapped address differs from the local one. -/
def stunSocket.GetCandidates (s : stunSocket) (hostCands : List Candidate) :
    List Candidate :=
  let c : Candidate :=
    ⟨s.MappedAddr, s.LocalAddr, CandidateServerReflexive,
      calcFoundation s.LocalAddr⟩
  if c.addr ≠ c.baseAddr then hostCands ++ [c] else hostCands

/-! ## Helper lemmas -/

/-- Looking up the key just written by setAssoc returns the written value. -/
theorem lookupChannelNumber_setAssoc (l : List (Nat × Nat)) (k v : Nat) :
    lookupChannelNumber (setAssoc l k v) k = v := by
  unfold lookupChannelNumber setAssoc
  rw [List.find?_append]
  have h1 : (l.filter (fun e => e.1 ≠ k)).find? (fun e => e.1 = k) = none := by
    rw [List.find?_eq_none]
    intro x hx
    have := (List.mem_filter.1 hx).2
    simp at this ⊢
    exact this
  rw [h1]
  simp

/-! ## C5 -/

/-- C5: the error-code constants of errorcode.go evaluate to 428 for
CodeStaleNonce and 478 for CodeRoleConflict, diverging from the claimed
438 and 487, while CodeUnauthorised is 401 as claimed. -/
theorem errorcode_values_diverge :
    CodeStaleNonce = 428 ∧ CodeRoleConflict = 478 ∧ CodeUnauthorised = 401 ∧
    CodeStaleNonce ≠ 438 ∧ CodeRoleConflict ≠ 487 := by
  decide

/-! ## C10 -/

/-- C10: stunServerSock.sendData never panics when called with the bound
address as source, discarding silently when stopped and enqueueing
otherwise, and panics when called with any other source address. -/
theorem sendData_requires_own_address (s : stunServerSock) (data : List Nat)
    (fromaddr toaddr : Nat) :
    (fromaddr = s.Addr →
      s.sendData data fromaddr toaddr ≠ SockEffect.panicked ∧
      (s.stoped = true →
        s.sendData data fromaddr toaddr = SockEffect.droppedStopped) ∧
      (s.stoped = false →
        s.sendData data fromaddr toaddr = SockEffect.sent data toaddr)) ∧
    (fromaddr ≠ s.Addr →
      s.sendData data fromaddr toaddr = SockEffect.panicked) := by
  unfold stunServerSock.sendData
  constructor
  · intro h
    subst h
    simp only [ne_eq, not_true_eq_false, if_neg, if_false]
    cases hs : s.stoped <;> simp [hs]
  · intro h
    have : s.Addr ≠ fromaddr := fun hc => h hc.symm
    simp [this]

/-- Witness for C10 at a concrete socket. -/
theorem sendData_requires_own_address_witness :
    (⟨7, .stageNegotiation, [], [], [], [], false⟩ :
        stunServerSock).sendData [1, 2] 7 9 = SockEffect.sent [1, 2] 9 := by
  have h := sendData_requires_own_address
    ⟨7, .stageNegotiation, [], [], [], [], false⟩ [1, 2] 7 9
  exact (h.1 rfl).2.2 rfl

/-! ## C3 -/

/-- C3: the turnServerSock send routing. From the relayed address with the
destination bound to a channel number in the channel range, the payload is
framed as ChannelData to the TURN server; from the relayed address with no
binding for the destination, the payload goes out in a SendIndication
carrying the destination as peer address and the payload as DATA, to the
TURN server; from the real bound address the bytes go directly to the
destination. -/
theorem turn_sendData_routing (ts : turnServerSock) (data : List Nat)
    (fromaddr toaddr n : Nat) :
    (fromaddr = ts.cfg.relayAddress →
      lookupChannelNumber ts.s.address2ChannelNumber toaddr = n →
      turn.MinChannelNumber ≤ n → n ≤ turn.MaxChannelNumber →
      ts.sendData data fromaddr toaddr =
        TurnSendAction.channelData n data ts.cfg.serverAddr) ∧
    (fromaddr = ts.cfg.relayAddress →
      ts.s.address2ChannelNumber.find? (fun e => e.1 = toaddr) = none →
      ts.sendData data fromaddr toaddr =
        TurnSendAction.sendIndication toaddr data ts.cfg.serverAddr) ∧
    (fromaddr = ts.s.Addr → ts.s.Addr ≠ ts.cfg.relayAddress →
      ts.sendData data fromaddr toaddr =
        TurnSendAction.direct data fromaddr toaddr) := by
  refine ⟨?_, ?_, ?_⟩
  · intro hf hl h1 h2
    unfold turnServerSock.sendData
    rw [if_pos hf, hl, if_pos ⟨h1, h2⟩]
  · intro hf hnone
    unfold turnServerSock.sendData
    rw [if_pos hf]
    have hz : lookupChannelNumber ts.s.address2ChannelNumber toaddr = 0 := by
      unfold lookupChannelNumber
      rw [hnone]
    rw [hz]
    have : ¬ (turn.MinChannelNumber ≤ 0 ∧ 0 ≤ turn.MaxChannelNumber) := by
      decide
    rw [if_neg this]
  · intro hf hne
    unfold turnServerSock.sendData
    rw [if_neg]
    rw [hf]
    exact hne

/-- Witness for C3: all three routes at concrete sockets. -/
theorem turn_sendData_routing_witness :
    (⟨⟨1, .turnModeData, [(0x4000, 50)], [(50, 0x4000)], [], [], false⟩,
        ⟨2, 3⟩⟩ : turnServerSock).sendData [9] 3 50 =
      TurnSendAction.channelData 0x4000 [9] 2 ∧
    (⟨⟨1, .turnModeData, [], [], [], [], false⟩,
        ⟨2, 3⟩⟩ : turnServerSock).sendData [9] 3 50 =
      TurnSendAction.sendIndication 50 [9] 2 ∧
    (⟨⟨1, .turnModeData, [], [], [], [], false⟩,
        ⟨2, 3⟩⟩ : turnServerSock).sendData [9] 1 50 =
      TurnSendAction.direct [9] 1 50 := by
  refine ⟨?_, ?_, ?_⟩
  · exact (turn_sendData_routing _ [9] 3 50 0x4000).1 rfl (by decide)
      (by decide) (by decide)
  · exact (turn_sendData_routing _ [9] 3 50 0).2.1 rfl (by decide)
  · exact (turn_sendData_routing _ [9] 1 50 0).2.2 rfl (by decide)

/-! ## C8 -/

/-- C8: GetCandidates appends the server-reflexive candidate, whose base is
the local address and whose transport address is the mapped address, exactly
when the mapped address differs from the local one; when they coincide the
result is the host candidate list alone. -/
theorem getCandidates_srflx_iff (s : stunSocket) (hostCands : List Candidate) :
    (s.MappedAddr ≠ s.LocalAddr →
      s.GetCandidates hostCands = hostCands ++
        [⟨s.MappedAddr, s.LocalAddr, CandidateServerReflexive,
          calcFoundation s.LocalAddr⟩]) ∧
    (s.MappedAddr = s.LocalAddr →
      s.GetCandidates hostCands = hostCands) := by
  unfold stunSocket.GetCandidates
  constructor
  · intro h
    simp [h]
  · intro h
    simp [h]

/-- Witness for C8 at concrete sockets. -/
theorem getCandidates_srflx_iff_witness :
    (⟨10, 20⟩ : stunSocket).GetCandidates
        [⟨10, 10, CandidateHost, 10⟩] =
      [⟨10, 10, CandidateHost, 10⟩,
        ⟨20, 10, CandidateServerReflexive, 10⟩] ∧
    (⟨10, 10⟩ : stunSocket).GetCandidates
        [⟨10, 10, CandidateHost, 10⟩] =
      [⟨10, 10, CandidateHost, 10⟩] := by
  constructor
  · exact (getCandidates_srflx_iff ⟨10, 20⟩ [⟨10, 10, CandidateHost, 10⟩]).1
      (by decide)
  · exact (getCandidates_srflx_iff ⟨10, 10⟩ [⟨10, 10, CandidateHost, 10⟩]).2
      rfl

/-! ## C6 -/

/-- C6: the receive path of turnServerSock panics instead of dropping when a
DataIndication from the TURN server has no DATA attribute: at this concrete
malformed inbound message RecieveStunMessage evaluates to a panic. -/
theorem recieveStunMessage_panics_on_malformed :
    turnServerSock.RecieveStunMessage
      ⟨⟨1, .stageNegotiation, [], [], [], [], false⟩, ⟨2, 3⟩⟩
      1 2 ⟨ClassIndication, MethodData, 5, []⟩ =
      [TurnRecvAction.panicked] := by
  decide

/-! ## C9 -/

/-- C9: adding then reading a RESERVATION-TOKEN of exactly 8 bytes returns
the same bytes, and adding then reading an ERROR-CODE with code between 300
and 699 and reason of at most 763 bytes returns the same code (rebuilt as
class times 100 plus number) and the same reason, on messages that do not
already carry the attribute in question. -/
theorem attr_roundtrip (t : List Nat) (m1 : Message) (c : ErrorCodeAttribute)
    (m2 : Message)
    (ht : t.length = 8)
    (hm1 : m1.attributes.find? (fun a => a.type = AttrReservationToken) = none)
    (hlow : 300 ≤ c.Code) (hhigh : c.Code ≤ 699)
    (hr : c.Reason.length ≤ 763)
    (hm2 : m2.attributes.find? (fun a => a.type = AttrErrorCode) = none) :
    (∃ m', ReservationToken.AddTo t m1 = .ok m' ∧
      ReservationToken.GetFrom m' = .ok t) ∧
    (∃ m', ErrorCodeAttribute.AddTo c m2 = .ok m' ∧
      ErrorCodeAttribute.GetFrom m' = .ok c) := by
  constructor
  · refine ⟨m1.Add AttrReservationToken t, ?_, ?_⟩
    · unfold ReservationToken.AddTo
      rw [if_neg]
      simp [reservationTokenSize, ht]
    · unfold ReservationToken.GetFrom Message.Get Message.Add
      simp only [List.find?_append, hm1, Option.none_or]
      rw [List.find?_cons_of_pos _ (by simp)]
      simp [reservationTokenSize, ht]
  · refine ⟨m2.Add AttrErrorCode
      ([0, 0, (c.Code / errorCodeModulo) % 256,
        (c.Code % errorCodeModulo) % 256] ++ c.Reason), ?_, ?_⟩
    · unfold ErrorCodeAttribute.AddTo
      rw [if_neg]
      simp [errorCodeReasonMaxB]
      omega
    · have hcl : (c.Code / errorCodeModulo) % 256 = c.Code / errorCodeModulo := by
        apply Nat.mod_eq_of_lt
        unfold errorCodeModulo
        omega
      have hnm : (c.Code % errorCodeModulo) % 256 = c.Code % errorCodeModulo := by
        apply Nat.mod_eq_of_lt
        have h100 : c.Code % errorCodeModulo < errorCodeModulo :=
          Nat.mod_lt _ (by decide)
        unfold errorCodeModulo at h100 ⊢
        omega
      unfold ErrorCodeAttribute.GetFrom Message.Get Message.Add
      simp only [List.find?_append, hm2, Option.none_or]
      rw [List.find?_cons_of_pos _ (by simp)]
      simp only [List.cons_append, List.nil_append]
      rw [if_neg (by simp [errorCodeReasonStart])]
      simp only [errorCodeClassByte, errorCodeNumberByte, errorCodeReasonStart,
        List.getD, List.drop]
      rw [hcl, hnm]
      have hcode : c.Code / errorCodeModulo * errorCodeModulo +
          c.Code % errorCodeModulo = c.Code := by
        unfold errorCodeModulo
        omega
      simp [hcode]

/-- Witness for C9 at a concrete token and error-code attribute. -/
theorem attr_roundtrip_witness :
    (∃ m', ReservationToken.AddTo [1, 2, 3, 4, 5, 6, 7, 8]
        ⟨ClassRequest, MethodAllocate, 5, []⟩ = .ok m' ∧
      ReservationToken.GetFrom m' = .ok [1, 2, 3, 4, 5, 6, 7, 8]) ∧
    (∃ m', ErrorCodeAttribute.AddTo ⟨438, [78, 79]⟩
        ⟨ClassErrorResponse, MethodAllocate, 6, []⟩ = .ok m' ∧
      ErrorCodeAttribute.GetFrom m' = .ok ⟨438, [78, 79]⟩) :=
  attr_roundtrip [1, 2, 3, 4, 5, 6, 7, 8] ⟨ClassRequest, MethodAllocate, 5, []⟩
    ⟨438, [78, 79]⟩ ⟨ClassErrorResponse, MethodAllocate, 6, []⟩
    (by decide) (by decide) (by decide) (by decide) (by decide) (by decide)

/-! ## More helper lemmas -/

/-- Asynchronous send touches only the response cache: waiters, bound
address and stopped flag are unchanged. -/
theorem sendStunMessageAsync_fields (s : stunServerSock) (msg : Message)
    (fa ta now : Nat) :
    (s.sendStunMessageAsync msg fa ta now).1.waiters = s.waiters ∧
    (s.sendStunMessageAsync msg fa ta now).1.Addr = s.Addr ∧
    (s.sendStunMessageAsync msg fa ta now).1.stoped = s.stoped ∧
    (s.sendStunMessageAsync msg fa ta now).1.mode = s.mode := by
  unfold stunServerSock.sendStunMessageAsync
  by_cases h : msg.classField = ClassSuccessResponse ∨
      msg.classField = ClassErrorResponse <;> simp [h]

/-! ## C7 -/

/-- C7 counterexample: two successive successful channel binds to the
distinct peers 100 and 101 both send channel number 0x4000 in the
ChannelBindRequest; the second does not use the next number 0x4001, so the
claimed monotonic allocation fails at this concrete input. -/
theorem channelBind_not_monotonic_counterexample :
    (let ts0 : turnServerSock :=
      ⟨⟨1, .stageNegotiation, [], [], [], [], false⟩, ⟨2, 3⟩⟩
    let ok : Message := ⟨ClassSuccessResponse, MethodChannelBind, 11, []⟩
    let r1 := ts0.channelBind 100 11 0 (.response ok)
    let r2 := r1.2.1.channelBind 101 12 0 (.response ok)
    r1.2.2 = true ∧ r1.1 = 0x4000 ∧ r2.2.2 = true ∧ r2.1 = 0x4000 ∧
      r2.1 ≠ 0x4001) := by
  decide

/-- C7 amended: every ChannelBindRequest carries the fixed channel number
0x4000 = turn.MinChannelNumber, and a successful bind records the mapping
from the peer address to 0x4000. -/
theorem channelBind_fixed_number (ts : turnServerSock) (addr tid now : Nat)
    (res : Message)
    (hw : tid ∉ ts.s.waiters)
    (hm : res.methodField = MethodChannelBind) :
    (ts.channelBind addr tid now (.response res)).1 = turn.MinChannelNumber ∧
    (ts.channelBind addr tid now (.response res)).2.2 = true ∧
    lookupChannelNumber
      (ts.channelBind addr tid now (.response res)).2.1.s.address2ChannelNumber
      addr = turn.MinChannelNumber := by
  unfold turnServerSock.channelBind turnServerSock.sendStunMessageSync
    stunServerSock.addWaiter turnServerSock.wrapperStunMessage
  simp only [hw, if_neg, if_false, ite_false, if_pos, ite_true, hm]
  simp [hm, stunServerSock.SetChannelNumber, lookupChannelNumber_setAssoc]

/-- Witness for C7 amended at a concrete socket and response. -/
theorem channelBind_fixed_number_witness :
    ((⟨⟨1, .stageNegotiation, [], [], [], [], false⟩, ⟨2, 3⟩⟩ :
        turnServerSock).channelBind 100 11 0
        (.response ⟨ClassSuccessResponse, MethodChannelBind, 11, []⟩)).1 =
      turn.MinChannelNumber ∧
    lookupChannelNumber
      ((⟨⟨1, .stageNegotiation, [], [], [], [], false⟩, ⟨2, 3⟩⟩ :
          turnServerSock).channelBind 100 11 0
          (.response ⟨ClassSuccessResponse, MethodChannelBind, 11, []⟩)).2.1.s.address2ChannelNumber
      100 = turn.MinChannelNumber := by
  have h := channelBind_fixed_number
    ⟨⟨1, .stageNegotiation, [], [], [], [], false⟩, ⟨2, 3⟩⟩ 100 11 0
    ⟨ClassSuccessResponse, MethodChannelBind, 11, []⟩
    (by decide) (by decide)
  exact ⟨h.1, h.2.2⟩

/-! ## C4 -/

/-- C4 counterexample: a synchronous send that times out leaves its waiter
registered; at this concrete socket the sync returns the timeout error and
transaction id 42 is still in the waiter map, contradicting the claim that
the waiter is no longer present after a timeout. -/
theorem sync_timeout_dangling_waiter_counterexample :
    (stunServerSock.sendStunMessageSync
        ⟨1, .stageNegotiation, [], [], [], [], false⟩
        ⟨ClassRequest, MethodBinding, 42, []⟩ 1 9 0 .timeout).2 =
      .error .errTimeout ∧
    42 ∈ (stunServerSock.sendStunMessageSync
        ⟨1, .stageNegotiation, [], [], [], [], false⟩
        ⟨ClassRequest, MethodBinding, 42, []⟩ 1 9 0 .timeout).1.waiters := by
  decide

/-- C4 amended: for both the stun and the turn server-socket, the waiter of
a synchronous send is removed on the response path, but on the timeout path
the sync returns errTimeout with the waiter still registered (the source
comments out the removal), so a timed-out sync leaves a dangling waiter. -/
theorem sync_waiter_response_and_timeout_paths
    (s : stunServerSock) (ts : turnServerSock) (msg : Message)
    (fa1 ta1 fa2 ta2 now : Nat) (res : Message)
    (hs : msg.transactionID ∉ s.waiters)
    (ht : msg.transactionID ∉ ts.s.waiters)
    (hfa : fa2 = ts.s.Addr) :
    (msg.transactionID ∉
        (s.sendStunMessageSync msg fa1 ta1 now (.response res)).1.waiters) ∧
    ((s.sendStunMessageSync msg fa1 ta1 now .timeout).2 =
        .error .errTimeout ∧
      msg.transactionID ∈
        (s.sendStunMessageSync msg fa1 ta1 now .timeout).1.waiters) ∧
    (msg.transactionID ∉
        (ts.sendStunMessageSync msg fa2 ta2 now (.response res)).1.s.waiters) ∧
    ((ts.sendStunMessageSync msg fa2 ta2 now .timeout).2 =
        .error .errTimeout ∧
      msg.transactionID ∈
        (ts.sendStunMessageSync msg fa2 ta2 now .timeout).1.s.waiters) := by
  have hw1 := sendStunMessageAsync_fields
    { s with waiters := s.waiters ++ [msg.transactionID] } msg fa1 ta1 now
  refine ⟨?_, ⟨?_, ?_⟩, ?_, ⟨?_, ?_⟩⟩
  · unfold stunServerSock.sendStunMessageSync stunServerSock.addWaiter
      stunServerSock.getAndRemoveWaiter
    simp only [hs, if_neg, if_false, ite_false]
    by_cases hmem : msg.transactionID ∈
        ((s.sendStunMessageAsync msg fa1 ta1 now).1).waiters
    all_goals simp_all [List.mem_filter]
  · unfold stunServerSock.sendStunMessageSync stunServerSock.addWaiter
    simp [hs]
  · unfold stunServerSock.sendStunMessageSync stunServerSock.addWaiter
    simp only [hs, if_neg, if_false, ite_false]
    simp [hw1.1]
  · unfold turnServerSock.sendStunMessageSync stunServerSock.addWaiter
      turnServerSock.wrapperStunMessage stunServerSock.getAndRemoveWaiter
    simp only [ht, if_neg, if_false, ite_false, hfa, if_pos, ite_true]
    by_cases hmem : msg.transactionID ∈
        (({ ts.s with waiters := ts.s.waiters ++ [msg.transactionID]
          } : stunServerSock).sendStunMessageAsync msg (ts.s.Addr) ta2 now).1.waiters
    all_goals simp_all [List.mem_filter]
  · unfold turnServerSock.sendStunMessageSync stunServerSock.addWaiter
      turnServerSock.wrapperStunMessage
    simp [ht, hfa]
  · unfold turnServerSock.sendStunMessageSync stunServerSock.addWaiter
      turnServerSock.wrapperStunMessage
    have hw2 := sendStunMessageAsync_fields
      { ts.s with waiters := ts.s.waiters ++ [msg.transactionID] } msg
      (ts.s.Addr) ta2 now
    simp only [ht, if_neg, if_false, ite_false, hfa, if_pos, ite_true]
    simp [hw2.1]

/-- Witness for C4 amended at a concrete socket, message and response. -/
theorem sync_waiter_paths_witness :
    42 ∈ ((⟨1, .stageNegotiation, [], [], [], [], false⟩ :
        stunServerSock).sendStunMessageSync
        ⟨ClassRequest, MethodBinding, 42, []⟩ 1 9 0 .timeout).1.waiters ∧
    42 ∉ ((⟨1, .stageNegotiation, [], [], [], [], false⟩ :
        stunServerSock).sendStunMessageSync
        ⟨ClassRequest, MethodBinding, 42, []⟩ 1 9 0
        (.response ⟨ClassSuccessResponse, MethodBinding, 42, []⟩)).1.waiters := by
  have h := sync_waiter_response_and_timeout_paths
    ⟨1, .stageNegotiation, [], [], [], [], false⟩
    ⟨⟨1, .stageNegotiation, [], [], [], [], false⟩, ⟨2, 3⟩⟩
    ⟨ClassRequest, MethodBinding, 42, []⟩ 1 9 1 9 0
    ⟨ClassSuccessResponse, MethodBinding, 42, []⟩
    (by decide) (by decide) (by decide)
  exact ⟨h.2.1.2, h.1⟩

/-! ## C2 -/

/-- The raw send of a datagram from the bound address of a non-stopped
socket is an enqueued send. -/
theorem sendData_sent_of_not_stoped (s : stunServerSock) (data : List Nat)
    (ta : Nat) (h : s.stoped = false) :
    s.sendData data s.Addr ta = SockEffect.sent data ta := by
  unfold stunServerSock.sendData
  rw [if_neg (by simp), h]
  simp

/-- C2: a request whose transaction id and method match a response cached by
a prior asynchronous send of a Success or Error response, within the cache
TTL, makes the receive dispatch re-send the cached response bytes to the
sender without invoking the upper-layer RecieveStunMessage callback, and the
same pass evicts every entry older than the TTL. -/
theorem cachedResponse_idempotent (s : stunServerSock) (res req : Message)
    (fa ta la fromaddr t0 now : Nat)
    (hcls : res.classField = ClassSuccessResponse ∨
      res.classField = ClassErrorResponse)
    (hid : req.transactionID = res.transactionID)
    (hmeth : req.methodField = res.methodField)
    (hcd : req.methodField ≠ MethodChannelData)
    (hw : req.transactionID ∉ s.waiters)
    (hfresh : ∀ e ∈ s.cachedResponse,
      e.2.msg.transactionID ≠ req.transactionID)
    (httl : ¬ t0 + stunResponseCacheDuration < now)
    (hstop : s.stoped = false) :
    ((s.sendStunMessageAsync res fa ta t0).1.stunMessageReceived la fromaddr
        req now).2 =
      [RecvOutcome.cachedResend (SockEffect.sent res.RawBytes fromaddr)] ∧
    ∀ e ∈ ((s.sendStunMessageAsync res fa ta t0).1.stunMessageReceived la
        fromaddr req now).1.cachedResponse,
      ¬ e.2.cacheTime + stunResponseCacheDuration < now := by
  obtain ⟨hwq, haq, hsq, hmq⟩ := sendStunMessageAsync_fields s res fa ta t0
  set s1 := (s.sendStunMessageAsync res fa ta t0).1 with hs1
  have hcache1 : s1.cachedResponse =
      s.cachedResponse.filter (fun e => e.1 ≠ res.transactionID) ++
        [(res.transactionID, ⟨t0, res⟩)] := by
    rw [hs1]
    unfold stunServerSock.sendStunMessageAsync
    rw [if_pos hcls]
  have hgrw : s1.getAndRemoveWaiter req.transactionID = (s1, false) := by
    unfold stunServerSock.getAndRemoveWaiter
    rw [if_neg]
    rw [hwq]
    exact hw
  have hlen1 : ¬ s1.cachedResponse.length = 0 := by
    rw [hcache1]
    simp
  have hkept : s1.cachedResponse.filter
      (fun e => ¬ e.2.cacheTime + stunResponseCacheDuration < now) =
      (s.cachedResponse.filter (fun e => e.1 ≠ res.transactionID)).filter
        (fun e => ¬ e.2.cacheTime + stunResponseCacheDuration < now) ++
        [(res.transactionID, ⟨t0, res⟩)] := by
    rw [hcache1, List.filter_append]
    congr 1
    rw [List.filter_cons, if_pos (decide_eq_true httl), List.filter_nil]
  have hfind : (((s.cachedResponse.filter
        (fun e => e.1 ≠ res.transactionID)).filter
        (fun e => ¬ e.2.cacheTime + stunResponseCacheDuration < now)) ++
        [((res.transactionID : Nat), (⟨t0, res⟩ : cachedResponse))]).find?
        (fun e => e.2.msg.methodField = req.methodField ∧
          e.2.msg.transactionID = req.transactionID) =
      some (res.transactionID, ⟨t0, res⟩) := by
    rw [List.find?_append]
    have hnone : ((s.cachedResponse.filter
        (fun e => e.1 ≠ res.transactionID)).filter
        (fun e => ¬ e.2.cacheTime + stunResponseCacheDuration < now)).find?
        (fun e => e.2.msg.methodField = req.methodField ∧
          e.2.msg.transactionID = req.transactionID) = none := by
      rw [List.find?_eq_none]
      intro x hx
      have hx1 := List.mem_of_mem_filter hx
      have hx2 := List.mem_of_mem_filter hx1
      have := hfresh x hx2
      simp only [decide_eq_true_eq, not_and]
      intro _
      exact this
    rw [hnone]
    rw [List.find?_cons_of_pos]
    · simp
    · simp [hmeth, hid]
  have hcA : (s1.checkCachedResponse req fromaddr now).1 = true := by
    unfold stunServerSock.checkCachedResponse
    rw [if_neg hlen1]
    simp only []
    rw [hkept, hfind]
  have hcB : (s1.checkCachedResponse req fromaddr now).2.2 =
      [SockEffect.sent res.RawBytes fromaddr] := by
    unfold stunServerSock.checkCachedResponse
    rw [if_neg hlen1]
    simp only []
    rw [hkept, hfind]
    simp [stunServerSock.sendData, hsq, hstop]
  have hcC : ∀ e ∈
      (s1.checkCachedResponse req fromaddr now).2.1.cachedResponse,
      ¬ e.2.cacheTime + stunResponseCacheDuration < now := by
    unfold stunServerSock.checkCachedResponse
    rw [if_neg hlen1]
    simp only []
    rw [hkept, hfind]
    intro e he
    have he2 : e ∈ (s.cachedResponse.filter
        (fun e => e.1 ≠ res.transactionID)).filter
        (fun e => ¬ e.2.cacheTime + stunResponseCacheDuration < now) ++
        [((res.transactionID : Nat), (⟨t0, res⟩ : cachedResponse))] := he
    simp only [List.mem_append] at he2
    rcases he2 with he2 | he2
    · have := (List.mem_filter.1 he2).2
      simp only [decide_eq_true_eq] at this
      exact this
    · simp only [List.mem_singleton] at he2
      subst he2
      exact httl
  have hrecv2 : (s1.stunMessageReceived la fromaddr req now).2 =
      (s1.checkCachedResponse req fromaddr now).2.2.map
        (fun e => RecvOutcome.cachedResend e) := by
    unfold stunServerSock.stunMessageReceived
    rw [if_neg hcd]
    unfold stunServerSock.dispatchTail
    rw [hgrw]
    simp only [Bool.false_eq_true, if_false, ite_false]
    rw [if_pos hcA]
  have hrecv1 : (s1.stunMessageReceived la fromaddr req now).1 =
      (s1.checkCachedResponse req fromaddr now).2.1 := by
    unfold stunServerSock.stunMessageReceived
    rw [if_neg hcd]
    unfold stunServerSock.dispatchTail
    rw [hgrw]
    simp only [Bool.false_eq_true, if_false, ite_false]
    rw [if_pos hcA]
  constructor
  · rw [hrecv2, hcB]
    rfl
  · rw [hrecv1]
    exact hcC

/-- Witness for C2 at a concrete socket: the response cached at time 0 is
re-sent for the matching request received at time 3. -/
theorem cachedResponse_idempotent_witness :
    (((⟨1, .stageNegotiation, [], [], [], [], false⟩ :
        stunServerSock).sendStunMessageAsync
        ⟨ClassSuccessResponse, MethodBinding, 42, []⟩ 1 9
        0).1.stunMessageReceived 1 9
        ⟨ClassRequest, MethodBinding, 42, []⟩ 3).2 =
      [RecvOutcome.cachedResend (SockEffect.sent
        (Message.RawBytes ⟨ClassSuccessResponse, MethodBinding, 42, []⟩) 9)] := by
  have h := cachedResponse_idempotent
    ⟨1, .stageNegotiation, [], [], [], [], false⟩
    ⟨ClassSuccessResponse, MethodBinding, 42, []⟩
    ⟨ClassRequest, MethodBinding, 42, []⟩
    1 9 1 9 0 3
    (by decide) (by decide) (by decide) (by decide) (by decide)
    (by intro e he; cases he) (by decide) (by decide)
  exact h.1

/-! ## C1 helper lemmas -/

/-- Counting a handler tag among invoked handlers of a list equals the
number of transactions carrying that tag. -/
theorem count_map_handler (l : List agentTransaction) (hh : Nat) :
    (l.map (fun t => t.h)).count hh =
      (l.filter (fun t => t.h = hh)).length := by
  induction l with
  | nil => rfl
  | cons a l ih =>
    by_cases hq : a.h = hh
    · simp [List.count_cons, List.filter_cons, hq, ih]
    · simp [List.count_cons, List.filter_cons, hq, ih]

/-- Erasing the found element removes exactly its contribution from any
filter count. -/
theorem length_filter_eraseP (l : List agentTransaction)
    (p q : agentTransaction → Bool) (t : agentTransaction)
    (hf : l.find? p = some t) :
    ((l.eraseP p).filter q).length + (if q t then 1 else 0) =
      (l.filter q).length := by
  induction l with
  | nil => simp at hf
  | cons a l ih =>
    by_cases hp : p a
    · rw [List.find?_cons_of_pos _ hp] at hf
      injection hf with hf
      subst hf
      rw [List.eraseP_cons_of_pos hp]
      by_cases hq : q a = true <;> simp [List.filter_cons, hq]
    · rw [List.find?_cons_of_neg _ hp] at hf
      rw [List.eraseP_cons_of_neg hp]
      have h2 := ih hf
      by_cases hq : q a = true <;> simp [List.filter_cons, hq] <;> omega

/-- Splitting a transaction list by deadline preserves the total count of a
handler tag. -/
theorem collect_partition (l : List agentTransaction) (gc hh : Nat) :
    ((l.filter (fun t => t.deadline < gc)).filter
        (fun t => t.h = hh)).length +
      ((l.filter (fun t => ¬ t.deadline < gc)).filter
        (fun t => t.h = hh)).length =
      (l.filter (fun t => t.h = hh)).length := by
  induction l with
  | nil => rfl
  | cons a l ih =>
    simp only [List.filter_cons]
    by_cases hp : a.deadline < gc
    · rw [if_pos (by simpa using hp), if_neg (by simpa using hp)]
      simp only [List.filter_cons]
      by_cases hq : a.h = hh
      · rw [if_pos (by simpa using hq), if_pos (by simpa using hq)]
        simp only [List.length_cons]
        omega
      · rw [if_neg (by simpa using hq), if_neg (by simpa using hq)]
        omega
    · rw [if_neg (by simpa using hp), if_pos (by simpa using hp)]
      simp only [List.filter_cons]
      by_cases hq : a.h = hh
      · rw [if_pos (by simpa using hq), if_pos (by simpa using hq)]
        simp only [List.length_cons]
        omega
      · rw [if_neg (by simpa using hq), if_neg (by simpa using hq)]
        omega

/-- One agent step conserves the handler accounting: invocations plus
remaining pending occurrences equal prior pending occurrences plus newly
started ones. -/
theorem step_count (a : Agent) (op : AgentOp) (hh : Nat) :
    (a.step op).2.1.count hh + (a.step op).1.pendingCount hh =
      a.pendingCount hh + (a.step op).2.2.count hh := by
  cases op with
  | start id deadline hh0 =>
    by_cases hc : a.closed = true
    · have hstep : a.step (.start id deadline hh0) = (a, [], []) := by
        simp only [Agent.step, Agent.Start]
        rw [if_pos hc]
      rw [hstep]
      simp
    · by_cases he : a.transactions.any (fun t => t.id = id) = true
      · have hstep : a.step (.start id deadline hh0) = (a, [], []) := by
          simp only [Agent.step, Agent.Start]
          rw [if_neg hc, if_pos he]
        rw [hstep]
        simp
      · have hstep : a.step (.start id deadline hh0) =
            ({ a with transactions :=
              a.transactions ++ [⟨id, deadline, hh0⟩] }, [], [hh0]) := by
          simp only [Agent.step, Agent.Start]
          rw [if_neg hc, if_neg he]
        rw [hstep]
        unfold Agent.pendingCount
        simp only [List.count_nil, List.filter_append, List.length_append,
          List.count_singleton]
        by_cases hq : hh0 = hh <;>
          simp [List.filter_cons, List.filter_nil, hq]
  | process id =>
    by_cases hc : a.closed = true
    · have hstep : a.step (.process id) = (a, [], []) := by
        simp only [Agent.step, Agent.Process]
        rw [if_pos hc]
      rw [hstep]
      simp
    · cases hf : a.transactions.find? (fun t => t.id = id) with
      | none =>
        have hstep : a.step (.process id) = (a, [], []) := by
          simp only [Agent.step, Agent.Process]
          rw [if_neg hc, hf]
        rw [hstep]
        simp
      | some t =>
        have hstep : a.step (.process id) =
            ({ a with transactions :=
              a.transactions.eraseP (fun t => t.id = id) }, [t.h], []) := by
          simp only [Agent.step, Agent.Process]
          rw [if_neg hc, hf]
        rw [hstep]
        unfold Agent.pendingCount
        have h2 := length_filter_eraseP a.transactions
          (fun t => t.id = id) (fun t => t.h = hh) t hf
        simp only [List.count_nil, List.count_singleton]
        by_cases hq : t.h = hh
        · rw [if_pos (by simpa using hq)]
          rw [if_pos (by simpa using hq)] at h2
          omega
        · rw [if_neg (by simpa using hq)]
          rw [if_neg (by simpa using hq)] at h2
          omega
  | stop id =>
    by_cases hc : a.closed = true
    · have hstep : a.step (.stop id) = (a, [], []) := by
        simp only [Agent.step, Agent.StopWithError]
        rw [if_pos hc]
      rw [hstep]
      simp
    · cases hf : a.transactions.find? (fun t => t.id = id) with
      | none =>
        have hstep : a.step (.stop id) = (a, [], []) := by
          simp only [Agent.step, Agent.StopWithError]
          rw [if_neg hc, hf]
        rw [hstep]
        simp
      | some t =>
        have hstep : a.step (.stop id) =
            ({ a with transactions :=
              a.transactions.eraseP (fun t => t.id = id) }, [t.h], []) := by
          simp only [Agent.step, Agent.StopWithError]
          rw [if_neg hc, hf]
        rw [hstep]
        unfold Agent.pendingCount
        have h2 := length_filter_eraseP a.transactions
          (fun t => t.id = id) (fun t => t.h = hh) t hf
        simp only [List.count_nil, List.count_singleton]
        by_cases hq : t.h = hh
        · rw [if_pos (by simpa using hq)]
          rw [if_pos (by simpa using hq)] at h2
          omega
        · rw [if_neg (by simpa using hq)]
          rw [if_neg (by simpa using hq)] at h2
          omega
  | collect gc =>
    by_cases hc : a.closed = true
    · have hstep : a.step (.collect gc) = (a, [], []) := by
        simp only [Agent.step, Agent.Collect]
        rw [if_pos hc]
      rw [hstep]
      simp
    · have hstep : a.step (.collect gc) =
          ({ a with transactions :=
            a.transactions.filter (fun t => ¬ t.deadline < gc) },
            (a.transactions.filter (fun t => t.deadline < gc)).map
              (fun t => t.h), []) := by
        simp only [Agent.step, Agent.Collect]
        rw [if_neg hc]
      rw [hstep]
      unfold Agent.pendingCount
      have h2 := collect_partition a.transactions gc hh
      have h3 := count_map_handler
        (a.transactions.filter (fun t => t.deadline < gc)) hh
      simp only [List.count_nil]
      omega
  | close =>
    by_cases hc : a.closed = true
    · have hstep : a.step .close = (a, [], []) := by
        simp only [Agent.step, Agent.Close]
        rw [if_pos hc]
      rw [hstep]
      simp
    · have hstep : a.step .close =
          (⟨[], true⟩, a.transactions.map (fun t => t.h), []) := by
        simp only [Agent.step, Agent.Close]
        rw [if_neg hc]
      rw [hstep]
      unfold Agent.pendingCount
      have h3 := count_map_handler a.transactions hh
      simp only [List.count_nil, List.filter_nil, List.length_nil]
      omega

/-- Running a sequence of operations conserves the handler accounting. -/
theorem run_count (ops : List AgentOp) (a : Agent) (hh : Nat) :
    (a.run ops).2.1.count hh + (a.run ops).1.pendingCount hh =
      a.pendingCount hh + (a.run ops).2.2.count hh := by
  induction ops generalizing a with
  | nil => simp [Agent.run]
  | cons op ops ih =>
    unfold Agent.run
    simp only []
    have h1 := step_count a op hh
    have h2 := ih (a.step op).1
    rw [List.count_append, List.count_append]
    omega

/-- A step keeps the invariant that a closed agent has no transactions. -/
theorem step_closed_empty (a : Agent) (op : AgentOp)
    (ha : a.closed = true → a.transactions = []) :
    (a.step op).1.closed = true → (a.step op).1.transactions = [] := by
  cases op with
  | start id deadline hh0 =>
    by_cases hc : a.closed = true
    · have hstep : a.step (.start id deadline hh0) = (a, [], []) := by
        simp only [Agent.step, Agent.Start]
        rw [if_pos hc]
      rw [hstep]
      exact ha
    · by_cases he : a.transactions.any (fun t => t.id = id) = true
      · have hstep : a.step (.start id deadline hh0) = (a, [], []) := by
          simp only [Agent.step, Agent.Start]
          rw [if_neg hc, if_pos he]
        rw [hstep]
        exact ha
      · have hstep : a.step (.start id deadline hh0) =
            ({ a with transactions :=
              a.transactions ++ [⟨id, deadline, hh0⟩] }, [], [hh0]) := by
          simp only [Agent.step, Agent.Start]
          rw [if_neg hc, if_neg he]
        rw [hstep]
        intro hcl
        exact absurd hcl hc
  | process id =>
    by_cases hc : a.closed = true
    · have hstep : a.step (.process id) = (a, [], []) := by
        simp only [Agent.step, Agent.Process]
        rw [if_pos hc]
      rw [hstep]
      exact ha
    · cases hf : a.transactions.find? (fun t => t.id = id) with
      | none =>
        have hstep : a.step (.process id) = (a, [], []) := by
          simp only [Agent.step, Agent.Process]
          rw [if_neg hc, hf]
        rw [hstep]
        exact ha
      | some t =>
        have hstep : a.step (.process id) =
            ({ a with transactions :=
              a.transactions.eraseP (fun t => t.id = id) }, [t.h], []) := by
          simp only [Agent.step, Agent.Process]
          rw [if_neg hc, hf]
        rw [hstep]
        intro hcl
        exact absurd hcl hc
  | stop id =>
    by_cases hc : a.closed = true
    · have hstep : a.step (.stop id) = (a, [], []) := by
        simp only [Agent.step, Agent.StopWithError]
        rw [if_pos hc]
      rw [hstep]
      exact ha
    · cases hf : a.transactions.find? (fun t => t.id = id) with
      | none =>
        have hstep : a.step (.stop id) = (a, [], []) := by
          simp only [Agent.step, Agent.StopWithError]
          rw [if_neg hc, hf]
        rw [hstep]
        exact ha
      | some t =>
        have hstep : a.step (.stop id) =
            ({ a with transactions :=
              a.transactions.eraseP (fun t => t.id = id) }, [t.h], []) := by
          simp only [Agent.step, Agent.StopWithError]
          rw [if_neg hc, hf]
        rw [hstep]
        intro hcl
        exact absurd hcl hc
  | collect gc =>
    by_cases hc : a.closed = true
    · have hstep : a.step (.collect gc) = (a, [], []) := by
        simp only [Agent.step, Agent.Collect]
        rw [if_pos hc]
      rw [hstep]
      exact ha
    · have hstep : a.step (.collect gc) =
          ({ a with transactions :=
            a.transactions.filter (fun t => ¬ t.deadline < gc) },
            (a.transactions.filter (fun t => t.deadline < gc)).map
              (fun t => t.h), []) := by
        simp only [Agent.step, Agent.Collect]
        rw [if_neg hc]
      rw [hstep]
      intro hcl
      exact absurd hcl hc
  | close =>
    by_cases hc : a.closed = true
    · have hstep : a.step .close = (a, [], []) := by
        simp only [Agent.step, Agent.Close]
        rw [if_pos hc]
      rw [hstep]
      exact ha
    · have hstep : a.step .close =
          (⟨[], true⟩, a.transactions.map (fun t => t.h), []) := by
        simp only [Agent.step, Agent.Close]
        rw [if_neg hc]
      rw [hstep]
      intro _
      rfl

/-- A run from a state where closed implies empty ends in such a state. -/
theorem run_closed_empty (ops : List AgentOp) (a : Agent)
    (ha : a.closed = true → a.transactions = []) :
    (a.run ops).1.closed = true → (a.run ops).1.transactions = [] := by
  induction ops generalizing a with
  | nil => simpa [Agent.run] using ha
  | cons op ops ih =>
    unfold Agent.run
    simp only []
    exact ih (a.step op).1 (step_closed_empty a op ha)

/-! ## C1 -/

/-- C1: handler exactly-once. Over any operation sequence from a fresh
agent, for every handler tag, the number of handler invocations plus the
number of still-pending transactions with that tag equals the number of
successful starts with that tag; hence no handler is invoked more often
than it was started, and once the agent is closed every successfully
started handler has been invoked exactly as many times as it was started:
never zero, never twice. -/
theorem agent_handler_once (ops : List AgentOp) (hh : Nat) :
    (Agent.new.run ops).2.1.count hh +
        (Agent.new.run ops).1.pendingCount hh =
      (Agent.new.run ops).2.2.count hh ∧
    (Agent.new.run ops).2.1.count hh ≤ (Agent.new.run ops).2.2.count hh ∧
    ((Agent.new.run ops).1.closed = true →
      (Agent.new.run ops).2.1.count hh =
        (Agent.new.run ops).2.2.count hh) := by
  have h := run_count ops Agent.new hh
  have hnew : Agent.new.pendingCount hh = 0 := rfl
  have hcl := run_closed_empty ops Agent.new (by decide)
  refine ⟨by omega, by omega, ?_⟩
  intro hc
  have hempty := hcl hc
  have hzero : (Agent.new.run ops).1.pendingCount hh = 0 := by
    unfold Agent.pendingCount
    rw [hempty]
    rfl
  omega

/-- Witness for C1: one started transaction followed by close gives exactly
one invocation. -/
theorem agent_handler_once_witness :
    ((Agent.new.run [.start 1 5 7, .close]).2.1.count 7 +
        (Agent.new.run [.start 1 5 7, .close]).1.pendingCount 7 =
      (Agent.new.run [.start 1 5 7, .close]).2.2.count 7 ∧
    (Agent.new.run [.start 1 5 7, .close]).2.1.count 7 ≤
      (Agent.new.run [.start 1 5 7, .close]).2.2.count 7 ∧
    ((Agent.new.run [.start 1 5 7, .close]).1.closed = true →
      (Agent.new.run [.start 1 5 7, .close]).2.1.count 7 =
        (Agent.new.run [.start 1 5 7, .close]).2.2.count 7)) ∧
    (Agent.new.run [.start 1 5 7, .close]).2.1.count 7 = 1 :=
  ⟨agent_handler_once [.start 1 5 7, .close] 7, by decide⟩
